import Mathlib

/-!
Shallow embedding of the conversation API client:
`src/conversation/client.py` (namespace `Client`) and `src/app.py`
(namespace `App`).

A response stream is modelled as the list of decoded lines produced by
`response.iter_lines()` (each line a `String`; the empty string stands for an
empty line, which `if line:` skips).  Python's `json.loads` is modelled by the
executable parser `json_loads` below; a raised exception is modelled with
`Except` (`PyError` names the exception class that escaped).  `response.close()`
is modelled by counting the close attempts an execution performs, together with
a `CloseBehavior` describing what the close call does when attempted.
-/

/-- A parsed JSON value, as produced by `json.loads`.  Numbers keep their raw
source text: no claim inspects a numeric value, only whether the extracted
`content` value is a string. -/
inductive Json where
  | null
  | bool (b : Bool)
  | num (raw : String)
  | str (s : String)
  | arr (elems : List Json)
  | obj (members : List (String × Json))

/-- JSON insignificant whitespace, as accepted by Python's `json.loads`. -/
def skipWs : List Char → List Char
  | [] => []
  | c :: cs => if c = ' ' ∨ c = '\t' ∨ c = '\n' ∨ c = '\r' then skipWs cs else c :: cs

/-- Value of one hex digit, for `\uXXXX` escapes. -/
def hexDigitVal (c : Char) : Option Nat :=
  if '0' ≤ c ∧ c ≤ '9' then some (c.toNat - '0'.toNat)
  else if 'a' ≤ c ∧ c ≤ 'f' then some (c.toNat - 'a'.toNat + 10)
  else if 'A' ≤ c ∧ c ≤ 'F' then some (c.toNat - 'A'.toNat + 10)
  else none

/-- Body of a JSON string literal, after the opening quote: returns the decoded
string and the input following the closing quote.  Mirrors `json.loads` in
strict mode: raw control characters below U+0020 are rejected. -/
def parseStringBody : Nat → List Char → List Char → Option (String × List Char)
  | 0, _, _ => none
  | _ + 1, _, [] => none
  | fuel + 1, acc, c :: cs =>
    if c = '"' then some (String.mk acc.reverse, cs)
    else if c = '\\' then
      match cs with
      | [] => none
      | e :: cs2 =>
        if e = '"' then parseStringBody fuel ('"' :: acc) cs2
        else if e = '\\' then parseStringBody fuel ('\\' :: acc) cs2
        else if e = '/' then parseStringBody fuel ('/' :: acc) cs2
        else if e = 'b' then parseStringBody fuel ('\x08' :: acc) cs2
        else if e = 'f' then parseStringBody fuel ('\x0c' :: acc) cs2
        else if e = 'n' then parseStringBody fuel ('\n' :: acc) cs2
        else if e = 'r' then parseStringBody fuel ('\x0d' :: acc) cs2
        else if e = 't' then parseStringBody fuel ('\t' :: acc) cs2
        else if e = 'u' then
          match cs2 with
          | h1 :: h2 :: h3 :: h4 :: cs3 =>
            match hexDigitVal h1, hexDigitVal h2, hexDigitVal h3, hexDigitVal h4 with
            | some a, some b, some c3, some d =>
              parseStringBody fuel (Char.ofNat (((a * 16 + b) * 16 + c3) * 16 + d) :: acc) cs3
            | _, _, _, _ => none
          | _ => none
        else none
    else if c.toNat < 32 then none
    else parseStringBody fuel (c :: acc) cs

/-- Longest leading run of decimal digits. -/
def spanDigits : List Char → List Char × List Char
  | [] => ([], [])
  | c :: cs =>
    if c.isDigit then
      let r := spanDigits cs
      (c :: r.1, r.2)
    else ([], c :: cs)

/-- Optional fractional part of a JSON number (`.digits`). -/
def parseFracPart : List Char → Option (List Char × List Char)
  | '.' :: r =>
    match spanDigits r with
    | ([], _) => none
    | (ds, r2) => some ('.' :: ds, r2)
  | cs => some ([], cs)

/-- Optional exponent part of a JSON number (`e`/`E`, sign, digits). -/
def parseExpPart : List Char → Option (List Char × List Char)
  | [] => some ([], [])
  | c :: r =>
    if c = 'e' ∨ c = 'E' then
      match r with
      | s :: rr =>
        if s = '+' ∨ s = '-' then
          match spanDigits rr with
          | ([], _) => none
          | (ds, r2) => some (c :: s :: ds, r2)
        else
          match spanDigits (s :: rr) with
          | ([], _) => none
          | (ds, r2) => some (c :: ds, r2)
      | [] => none
    else some ([], c :: r)

/-- A JSON number, kept as its raw text. -/
def parseNumber (cs : List Char) : Option (String × List Char) :=
  let sgn : List Char × List Char :=
    match cs with
    | '-' :: r => (['-'], r)
    | _ => ([], cs)
  match spanDigits sgn.2 with
  | ([], _) => none
  | (ds, cs2) =>
    if ds.head? = some '0' ∧ ds.length ≠ 1 then none
    else
      match parseFracPart cs2 with
      | none => none
      | some (fr, cs3) =>
        match parseExpPart cs3 with
        | none => none
        | some (ex, cs4) => some (String.mk (sgn.1 ++ ds ++ fr ++ ex), cs4)

/-- Consume an expected literal tail (for `true`, `false`, `null`, ...). -/
def dropLit : List Char → List Char → Option (List Char)
  | [], cs => some cs
  | _ :: _, [] => none
  | l :: ls, c :: cs => if c = l then dropLit ls cs else none

mutual

/-- One JSON value (fuel-indexed; the top level passes enough fuel for any
input of the given length).  Mirrors Python `json.loads`, including its
acceptance of `NaN`, `Infinity` and `-Infinity`. -/
def parseValue : Nat → List Char → Option (Json × List Char)
  | 0, _ => none
  | fuel + 1, cs =>
    match skipWs cs with
    | [] => none
    | c :: rest =>
      if c = '"' then
        match parseStringBody (rest.length + 1) [] rest with
        | some (s, r) => some (.str s, r)
        | none => none
      else if c = '\x7b' then
        match skipWs rest with
        | '\x7d' :: r => some (.obj [], r)
        | rest2 => parseMembers fuel [] rest2
      else if c = '[' then
        match skipWs rest with
        | ']' :: r => some (.arr [], r)
        | _ => parseElems fuel [] rest
      else if c = 't' then
        match dropLit ['r', 'u', 'e'] rest with
        | some r => some (.bool true, r)
        | none => none
      else if c = 'f' then
        match dropLit ['a', 'l', 's', 'e'] rest with
        | some r => some (.bool false, r)
        | none => none
      else if c = 'n' then
        match dropLit ['u', 'l', 'l'] rest with
        | some r => some (.null, r)
        | none => none
      else if c = 'N' then
        match dropLit ['a', 'N'] rest with
        | some r => some (.num "NaN", r)
        | none => none
      else if c = 'I' then
        match dropLit ['n', 'f', 'i', 'n', 'i', 't', 'y'] rest with
        | some r => some (.num "Infinity", r)
        | none => none
      else if c = '-' then
        match rest with
        | 'I' :: r2 =>
          match dropLit ['n', 'f', 'i', 'n', 'i', 't', 'y'] r2 with
          | some r => some (.num "-Infinity", r)
          | none => none
        | _ =>
          match parseNumber (c :: rest) with
          | some (s, r) => some (.num s, r)
          | none => none
      else
        match parseNumber (c :: rest) with
        | some (s, r) => some (.num s, r)
        | none => none

/-- Members of a JSON object, after the opening brace (non-empty case). -/
def parseMembers : Nat → List (String × Json) → List Char → Option (Json × List Char)
  | 0, _, _ => none
  | fuel + 1, acc, cs =>
    match skipWs cs with
    | '"' :: rest =>
      match parseStringBody (rest.length + 1) [] rest with
      | none => none
      | some (k, r1) =>
        match skipWs r1 with
        | ':' :: r2 =>
          match parseValue fuel r2 with
          | none => none
          | some (v, r3) =>
            match skipWs r3 with
            | ',' :: r4 => parseMembers fuel ((k, v) :: acc) r4
            | '\x7d' :: r4 => some (.obj ((k, v) :: acc).reverse, r4)
            | _ => none
        | _ => none
    | _ => none

/-- Elements of a JSON array, after the opening bracket (non-empty case). -/
def parseElems : Nat → List Json → List Char → Option (Json × List Char)
  | 0, _, _ => none
  | fuel + 1, acc, cs =>
    match parseValue fuel cs with
    | none => none
    | some (v, r1) =>
      match skipWs r1 with
      | ',' :: r2 => parseElems fuel (v :: acc) r2
      | ']' :: r2 => some (.arr (v :: acc).reverse, r2)
      | _ => none

end

/-- Model of Python's `json.loads` on a decoded line: `some v` when the whole
line is one JSON document, `none` when `json.loads` raises. -/
def json_loads (s : String) : Option Json :=
  match parseValue (s.data.length + 1) s.data with
  | some (v, r) => if skipWs r = [] then some v else none
  | none => none

/-- Python dict lookup `v[k]` after `json.loads`: objects keep the last binding
of a duplicated key; `none` models the raised `KeyError`/`TypeError`. -/
def Json.getKey : Json → String → Option Json
  | .obj kvs, k => kvs.foldl (fun acc kv => if kv.1 = k then some kv.2 else acc) none
  | _, _ => none

/-! ## The line filter shared by both parsers

`src/conversation/client.py` (`parse_chunks`) and `src/app.py`
(`ResponseParser.parse_response`) run the same per-line code:

    if line:
        decoded_line = line.decode('utf-8')
        if decoded_line.startswith('{"type": "content", "content":'):
            content = json.loads(decoded_line)['content']
            ... use content ...
-/

/-- The literal the source matches with `str.startswith`:
`'{"type": "content", "content":'` (note the spaces after the colons). -/
def contentStart : String := "\x7b\"type\": \"content\", \"content\":"

/-- `listStarts s pat`: `pat` is an initial segment of `s`. -/
def listStarts : List Char → List Char → Bool
  | _, [] => true
  | [], _ :: _ => false
  | c :: cs, p :: ps => c = p && listStarts cs ps

/-- Python's `s.startswith(pat)` on decoded lines. -/
def strStarts (s pat : String) : Bool := listStarts s.data pat.data

/-- What one iteration of the line loop does with one line. -/
inductive LineStep where
  | skip
  | emit (v : Json)
  | raiseErr

/-- One iteration of the loop body: empty lines and lines not starting with
`contentStart` are skipped; on a matching line, `json.loads(line)['content']`
either produces the content value (`emit`) or raises (`raiseErr`: malformed
JSON, or a JSON document without a `content` key). -/
def processLine (line : String) : LineStep :=
  if line = "" then .skip
  else if strStarts line contentStart then
    match json_loads line with
    | none => .raiseErr
    | some v =>
      match v.getKey "content" with
      | none => .raiseErr
      | some c => .emit c
  else .skip

/-- Result of driving the `parse_chunks` generator to completion: the values
it yielded in order, how many lines of the stream it consumed, and whether it
terminated by raising (an uncaught exception from `json.loads`) instead of by
exhausting the stream. -/
structure ChunkRun where
  yielded : List Json
  consumed : Nat
  errored : Bool

/-- The line loop of `parse_chunks`, stopping at the first raising line. -/
def runChunks : List String → ChunkRun
  | [] => ⟨[], 0, false⟩
  | l :: ls =>
    match processLine l with
    | .skip => ⟨(runChunks ls).yielded, (runChunks ls).consumed + 1, (runChunks ls).errored⟩
    | .emit v => ⟨v :: (runChunks ls).yielded, (runChunks ls).consumed + 1, (runChunks ls).errored⟩
    | .raiseErr => ⟨[], 1, true⟩

/-- Exception classes that can escape to modelled code. -/
inductive PyError where
  | transportError
  | jsonDecodeError
  | typeError
  | closeError
deriving DecidableEq

/-- The lazy generator object `parse_chunks()` returns.  `onCloseCloses`
counts the `response.close()` calls that closing/discarding the generator
early runs: the generator body wraps its `yield` in no `try/finally` and never
touches `response.close`, so finalizing it runs none. -/
structure PyGenerator where
  yields : List Json
  errored : Bool
  consumed : Nat
  onCloseCloses : Nat

/-- `"".join(...)` over the values a generator yielded: concatenation when
every value is a `str`, a raised `TypeError` otherwise. -/
def joinStrings : List Json → Except PyError String
  | [] => .ok ""
  | .str s :: rest =>
    match joinStrings rest with
    | .ok t => .ok (s ++ t)
    | .error e => .error e
  | _ :: _ => .error .typeError

/-- `"".join(parse_chunks())`: driving the generator re-raises its uncaught
`json.loads` exception; otherwise the join itself type-checks the items. -/
def joinAll (g : PyGenerator) : Except PyError String :=
  if g.errored then .error .jsonDecodeError
  else joinStrings g.yields

/-- What `ResponseParser.parse_response` in `client.py` returns: a generator
(`chunked=True`) or the fully aggregated string (`chunked=False`). -/
inductive Parsed where
  | chunks (g : PyGenerator)
  | full (s : String)

/-- `messages` entries of the request body. -/
structure Message where
  role : String
  content : String
deriving DecidableEq

/-- The request body `enter_prompt` assembles. -/
structure RequestData where
  model : String
  web_search : Bool
  provider : String
  messages : List Message
  auto_continue : Bool
  api_key : Option String
deriving DecidableEq

/-- What `response.close()` does when attempted, covering the exception
classes the source distinguishes. -/
inductive CloseBehavior where
  | ok
  | streamConsumedError
  | requestException
  | otherError
deriving DecidableEq

namespace Client

/-- `ResponseParser.parse_response`'s inner generator `parse_chunks` from
`src/conversation/client.py`: yields `json.loads(line)['content']` for each
non-empty line starting with `contentStart`.  No `try/finally`, no
`response.close` anywhere in its body, hence `onCloseCloses := 0`. -/
def parse_chunks (stream : List String) : PyGenerator :=
  { yields := (runChunks stream).yielded
    errored := (runChunks stream).errored
    consumed := (runChunks stream).consumed
    onCloseCloses := 0 }

/-- `ResponseParser.parse_response` from `src/conversation/client.py`:
`parse_chunks()` when `chunked`, else `"".join(parse_chunks())` (where a
raised exception propagates to the caller). -/
def parse_response (stream : List String) (chunked : Bool) : Except PyError Parsed :=
  if chunked then .ok (.chunks (parse_chunks stream))
  else
    match joinAll (parse_chunks stream) with
    | .ok s => .ok (.full s)
    | .error e => .error e

/-- `ConversationAPIClient.send_request`: POST to
`f"{self.base_url}/backend-api/v2/conversation"`.  The transport (the
`requests` library plus the server) is a parameter: it maps the url and the
JSON body to either the streamed response lines or a raised transport
exception. -/
def send_request (transport : String → RequestData → Except PyError (List String))
    (base_url : String) (data : RequestData) : Except PyError (List String) :=
  transport (base_url ++ "/backend-api/v2/conversation") data

/-- `ConversationAPI.enter_prompt` from `src/conversation/client.py`.
Returns the value the call produces (or the exception it raises) together
with the number of `response.close()` attempts the call performed. -/
def enter_prompt (transport : String → RequestData → Except PyError (List String))
    (closeBehavior : CloseBehavior) (base_url : String)
    (prompt : String) (model : String) (web_search : Bool) (provider : String)
    (auto_continue : Bool) (api_key : Option String) (chunked : Bool) :
    Except PyError Parsed × Nat :=
  let data : RequestData :=
    ⟨model, web_search, provider, [⟨"user", prompt⟩], auto_continue, api_key⟩
  match send_request transport base_url data with
  | .error e => (.error e, 0)
  | .ok response =>
    match parse_response response chunked with
    | .error e => (.error e, 0)
    | .ok parsed =>
      if chunked then (.ok parsed, 0)
      else
        match closeBehavior with
        | .otherError => (.error .closeError, 1)
        | _ => (.ok parsed, 1)

end Client

namespace App

/-- The accumulation loop of `ResponseParser.parse_response` in `src/app.py`:
`full_response += content` line by line (`TypeError` as soon as a non-string
content value is added; a `json.loads` exception propagates immediately). -/
def parseAux (acc : String) : List String → Except PyError String
  | [] => .ok acc
  | l :: ls =>
    match processLine l with
    | .skip => parseAux acc ls
    | .emit (.str s) => parseAux (acc ++ s) ls
    | .emit _ => .error .typeError
    | .raiseErr => .error .jsonDecodeError

/-- `ResponseParser.parse_response` from `src/app.py` (aggregate only). -/
def parse_response (stream : List String) : Except PyError String :=
  parseAux "" stream

end App

/-! ## Derived notions used to state the claims -/

/-- `f1 ++ f2 ++ ... ++ fN`. -/
def concatStrings : List String → String
  | [] => ""
  | s :: rest => s ++ concatStrings rest

/-- A well-formed stream in the sense of the specification's §8: every line is
either one the parser skips or a content event it recognises whose `content`
value is a string; returns the fragments `f1..fN` in arrival order, `none` if
some line would raise. -/
def wellFormedFragments : List String → Option (List String)
  | [] => some []
  | l :: ls =>
    match processLine l with
    | .skip => wellFormedFragments ls
    | .emit (.str s) => (wellFormedFragments ls).map (s :: ·)
    | .emit _ => none
    | .raiseErr => none

/-- The content values the recognised content events of a stream carry, in
arrival order. -/
def contentEmits (stream : List String) : List Json :=
  stream.filterMap fun l =>
    match processLine l with
    | .emit v => some v
    | _ => none

/-- The per-stream aggregate result with the error identity erased: the common
meaning of the two aggregate implementations. -/
def streamResult : List String → Except Unit String
  | [] => .ok ""
  | l :: ls =>
    match processLine l with
    | .skip => streamResult ls
    | .emit (.str s) => (streamResult ls).map (s ++ ·)
    | .emit _ => .error ()
    | .raiseErr => .error ()

/-- Erase which exception was raised. -/
def errUnit : Except PyError String → Except Unit String
  | .ok s => .ok s
  | .error _ => .error ()

/-- The string an aggregate-mode `Client.parse_response` call returns, error
identity erased. -/
def fullOf : Except PyError Parsed → Except Unit String
  | .ok (.full s) => .ok s
  | .ok (.chunks _) => .error ()
  | .error _ => .error ()

/-- `true` when no line of the stream makes the line loop raise. -/
def linesNoRaise : List String → Bool
  | [] => true
  | l :: ls =>
    (match processLine l with
     | .raiseErr => false
     | _ => true) && linesNoRaise ls

/-! ## Concrete stream lines used by the claims

`c4_line1`..`c4_line3` are the three lines of the specification's §8 scenario,
written exactly as the spec writes them (no space after the colons).
`c4s1`..`c4s3` are the same three events serialized with a space after each
colon, the form the source's `startswith` test recognises.  `badLine` is a
malformed line that begins with the recognised content-event literal
(`json.loads` raises on it); `noiseLine` is a malformed line that does not. -/

def c4_line1 : String := "\x7b\"type\":\"content\",\"content\":\"Hi\"\x7d"

def c4_line2 : String := "\x7b\"type\":\"status\",\"content\":\"ignored\"\x7d"

def c4_line3 : String := "\x7b\"type\":\"content\",\"content\":\" there\"\x7d"

def c4s1 : String := "\x7b\"type\": \"content\", \"content\": \"Hi\"\x7d"

def c4s2 : String := "\x7b\"type\": \"status\", \"content\": \"ignored\"\x7d"

def c4s3 : String := "\x7b\"type\": \"content\", \"content\": \" there\"\x7d"

def badLine : String := contentStart

def noiseLine : String := "\x7bgarbage"

/-! ## Lemmas about the line loop -/

theorem processLine_skip_of_not_starts {l : String}
    (h : strStarts l contentStart = false) : processLine l = .skip := by
  unfold processLine
  split
  · rfl
  · rw [h]
    simp

theorem runChunks_cons (l : String) (ls : List String) :
    runChunks (l :: ls) =
      match processLine l with
      | .skip => ⟨(runChunks ls).yielded, (runChunks ls).consumed + 1, (runChunks ls).errored⟩
      | .emit v => ⟨v :: (runChunks ls).yielded, (runChunks ls).consumed + 1, (runChunks ls).errored⟩
      | .raiseErr => ⟨[], 1, true⟩ := rfl

/-- Inserting a line the parser skips anywhere changes neither what the
generator yields nor whether it errors. -/
theorem runChunks_insert_skip (xs ys : List String) {l : String}
    (hl : processLine l = .skip) :
    (runChunks (xs ++ l :: ys)).yielded = (runChunks (xs ++ ys)).yielded ∧
    (runChunks (xs ++ l :: ys)).errored = (runChunks (xs ++ ys)).errored := by
  induction xs with
  | nil =>
    simp [List.nil_append, runChunks_cons, hl]
  | cons x xs ih =>
    cases h : processLine x with
    | skip =>
      simp only [List.cons_append, runChunks_cons, h]
      exact ih
    | emit v =>
      simp [List.cons_append, runChunks_cons, h, ih.1, ih.2]
    | raiseErr =>
      simp [List.cons_append, runChunks_cons, h]

/-- On streams with no raising line, the generator yields exactly the content
values of the recognised content events, in arrival order. -/
theorem runChunks_yielded_eq_contentEmits (stream : List String)
    (h : ∀ m ∈ stream, processLine m ≠ .raiseErr) :
    (runChunks stream).yielded = contentEmits stream := by
  induction stream with
  | nil => rfl
  | cons l ls ih =>
    have hl := h l (by simp)
    have ihh := ih fun m hm => h m (by simp [hm])
    simp only [contentEmits] at ihh ⊢
    cases hpl : processLine l with
    | skip => simp [runChunks_cons, List.filterMap_cons, hpl, ihh]
    | emit v => simp [runChunks_cons, List.filterMap_cons, hpl, ihh]
    | raiseErr => exact absurd hpl hl

/-- A well-formed stream yields exactly its fragments, tagged as strings, and
the generator terminates normally. -/
theorem runChunks_of_wellFormed {stream : List String} {fs : List String}
    (h : wellFormedFragments stream = some fs) :
    (runChunks stream).yielded = fs.map Json.str ∧
    (runChunks stream).errored = false ∧
    (runChunks stream).consumed = stream.length := by
  induction stream generalizing fs with
  | nil =>
    simp only [wellFormedFragments, Option.some_inj] at h
    subst h
    exact ⟨rfl, rfl, rfl⟩
  | cons l ls ih =>
    rw [wellFormedFragments] at h
    cases hpl : processLine l with
    | skip =>
      rw [hpl] at h
      obtain ⟨h1, h2, h3⟩ := ih h
      simp [runChunks_cons, hpl, h1, h2, h3]
    | emit v =>
      rw [hpl] at h
      cases v with
      | str s =>
        cases hwf : wellFormedFragments ls with
        | none => rw [hwf] at h; simp at h
        | some fs' =>
          rw [hwf] at h
          have h' : s :: fs' = fs := by simpa using h
          subst h'
          obtain ⟨h1, h2, h3⟩ := ih hwf
          simp [runChunks_cons, hpl, h1, h2, h3]
      | null => simp at h
      | bool b => simp at h
      | num r => simp at h
      | arr xs => simp at h
      | obj kvs => simp at h
    | raiseErr => rw [hpl] at h; simp at h

theorem linesNoRaise_spec {stream : List String} (h : linesNoRaise stream = true) :
    ∀ m ∈ stream, processLine m ≠ .raiseErr := by
  induction stream with
  | nil => intro m hm; cases hm
  | cons l ls ih =>
    rw [linesNoRaise, Bool.and_eq_true] at h
    intro m hm
    rcases List.mem_cons.mp hm with rfl | hm'
    · intro hc
      rw [hc] at h
      exact Bool.false_ne_true h.1
    · exact ih h.2 m hm'

theorem streamResult_cons (l : String) (ls : List String) :
    streamResult (l :: ls) =
      match processLine l with
      | .skip => streamResult ls
      | .emit (.str s) => (streamResult ls).map (s ++ ·)
      | .emit _ => .error ()
      | .raiseErr => .error () := rfl

theorem joinAll_parse_chunks (stream : List String) :
    joinAll (Client.parse_chunks stream) =
      if (runChunks stream).errored then .error .jsonDecodeError
      else joinStrings (runChunks stream).yielded := rfl

/-- Joining string-tagged fragments gives their concatenation. -/
theorem joinStrings_map_str (fs : List String) :
    joinStrings (fs.map Json.str) = .ok (concatStrings fs) := by
  induction fs with
  | nil => rfl
  | cons s fs ih => simp [joinStrings, concatStrings, ih]

/-- The `client.py` aggregate path computes `streamResult` (error identity
erased). -/
theorem errUnit_joinAll_eq_streamResult (stream : List String) :
    errUnit (joinAll (Client.parse_chunks stream)) = streamResult stream := by
  induction stream with
  | nil => rfl
  | cons l ls ih =>
    simp only [joinAll_parse_chunks] at ih ⊢
    cases hpl : processLine l with
    | skip =>
      simpa [runChunks_cons, streamResult_cons, hpl] using ih
    | emit v =>
      cases v with
      | str s =>
        simp only [runChunks_cons, streamResult_cons, hpl]
        cases her : (runChunks ls).errored with
        | true =>
          have hsr : streamResult ls = Except.error () := by rw [← ih, her]; rfl
          simp [hsr, errUnit, Except.map]
        | false =>
          cases hjs : joinStrings (runChunks ls).yielded with
          | ok t =>
            have hsr : streamResult ls = Except.ok t := by rw [← ih, her, hjs]; rfl
            simp [hsr, joinStrings, hjs, errUnit, Except.map]
          | error e =>
            have hsr : streamResult ls = Except.error () := by rw [← ih, her, hjs]; rfl
            simp [hsr, joinStrings, hjs, errUnit, Except.map]
      | null =>
        cases her : (runChunks ls).errored <;>
          simp [runChunks_cons, streamResult_cons, hpl, her, joinStrings, errUnit]
      | bool b =>
        cases her : (runChunks ls).errored <;>
          simp [runChunks_cons, streamResult_cons, hpl, her, joinStrings, errUnit]
      | num r =>
        cases her : (runChunks ls).errored <;>
          simp [runChunks_cons, streamResult_cons, hpl, her, joinStrings, errUnit]
      | arr xs =>
        cases her : (runChunks ls).errored <;>
          simp [runChunks_cons, streamResult_cons, hpl, her, joinStrings, errUnit]
      | obj kvs =>
        cases her : (runChunks ls).errored <;>
          simp [runChunks_cons, streamResult_cons, hpl, her, joinStrings, errUnit]
    | raiseErr =>
      simp [runChunks_cons, streamResult_cons, hpl, errUnit]

/-- The string an aggregate call returns is `joinAll` of the generator. -/
theorem fullOf_parse_response (stream : List String) :
    fullOf (Client.parse_response stream false) =
      errUnit (joinAll (Client.parse_chunks stream)) := by
  unfold Client.parse_response
  cases hj : joinAll (Client.parse_chunks stream) with
  | ok s => simp [hj, fullOf, errUnit]
  | error e => simp [hj, fullOf, errUnit]

/-- The `app.py` accumulation loop computes `streamResult` relative to its
accumulator (error identity erased). -/
theorem errUnit_parseAux (ls : List String) :
    ∀ acc, errUnit (App.parseAux acc ls) = (streamResult ls).map (acc ++ ·) := by
  induction ls with
  | nil =>
    intro acc
    simp [App.parseAux, streamResult, errUnit, Except.map, String.append_empty]
  | cons l ls ih =>
    intro acc
    cases hpl : processLine l with
    | skip => simp [App.parseAux, streamResult_cons, hpl, ih]
    | emit v =>
      cases v with
      | str s =>
        simp only [App.parseAux, streamResult_cons, hpl, ih]
        cases hsr : streamResult ls with
        | ok t => simp [hsr, Except.map, String.append_assoc]
        | error e => simp [hsr, Except.map]
      | null => simp [App.parseAux, streamResult_cons, hpl, errUnit, Except.map]
      | bool b => simp [App.parseAux, streamResult_cons, hpl, errUnit, Except.map]
      | num r => simp [App.parseAux, streamResult_cons, hpl, errUnit, Except.map]
      | arr xs => simp [App.parseAux, streamResult_cons, hpl, errUnit, Except.map]
      | obj kvs => simp [App.parseAux, streamResult_cons, hpl, errUnit, Except.map]
    | raiseErr => simp [App.parseAux, streamResult_cons, hpl, errUnit, Except.map]

/-- Inserting a skipped line changes nothing in the `app.py` loop either. -/
theorem parseAux_insert_skip (xs ys : List String) {l : String}
    (hl : processLine l = .skip) :
    ∀ acc, App.parseAux acc (xs ++ l :: ys) = App.parseAux acc (xs ++ ys) := by
  induction xs with
  | nil => intro acc; simp [App.parseAux, hl]
  | cons x xs ih =>
    intro acc
    cases h : processLine x with
    | skip => simp [App.parseAux, h, ih]
    | emit v =>
      cases v with
      | str s => simp [App.parseAux, h, ih]
      | null => simp [App.parseAux, h]
      | bool b => simp [App.parseAux, h]
      | num r => simp [App.parseAux, h]
      | arr zs => simp [App.parseAux, h]
      | obj kvs => simp [App.parseAux, h]
    | raiseErr => simp [App.parseAux, h]

/-! ## The claims -/

/-- C1: on a well-formed stream whose recognised content events carry
fragments `f1..fN` (and whose other lines the parser skips), aggregate mode
(`chunked=False`) returns exactly `f1 ++ ... ++ fN`, and the parse consumes
every line of the stream before returning. -/
theorem claim_C1_aggregate_concatenation (stream : List String) (fs : List String)
    (h : wellFormedFragments stream = some fs) :
    Client.parse_response stream false = .ok (.full (concatStrings fs)) ∧
    (Client.parse_chunks stream).consumed = stream.length := by
  obtain ⟨h1, h2, h3⟩ := runChunks_of_wellFormed h
  refine ⟨?_, h3⟩
  simp [Client.parse_response, joinAll_parse_chunks, h1, h2, joinStrings_map_str]

/-- Witness for C1, at the specification's §8 scenario written in the form the
parser recognises. -/
theorem claim_C1_witness :
    wellFormedFragments [c4s1, c4s2, c4s3] = some ["Hi", " there"] ∧
    (Client.parse_response [c4s1, c4s2, c4s3] false
        = .ok (.full (concatStrings ["Hi", " there"])) ∧
      (Client.parse_chunks [c4s1, c4s2, c4s3]).consumed = [c4s1, c4s2, c4s3].length) :=
  ⟨rfl, claim_C1_aggregate_concatenation [c4s1, c4s2, c4s3] ["Hi", " there"] rfl⟩

/-- C2: on a well-formed stream with fragments `f1..fN`, streaming mode
(`chunked=True`) returns the generator, which yields exactly `f1, ..., fN` in
order and then terminates normally (for `N = 0` it terminates at once having
yielded nothing). -/
theorem claim_C2_streaming_yields (stream : List String) (fs : List String)
    (h : wellFormedFragments stream = some fs) :
    Client.parse_response stream true = .ok (.chunks (Client.parse_chunks stream)) ∧
    (Client.parse_chunks stream).yields = fs.map Json.str ∧
    (Client.parse_chunks stream).errored = false := by
  obtain ⟨h1, h2, _⟩ := runChunks_of_wellFormed h
  exact ⟨rfl, h1, h2⟩

/-- Witness for C2: the two-fragment scenario and the empty stream. -/
theorem claim_C2_witness :
    (wellFormedFragments [c4s1, c4s2, c4s3] = some ["Hi", " there"] ∧
      (Client.parse_response [c4s1, c4s2, c4s3] true
          = .ok (.chunks (Client.parse_chunks [c4s1, c4s2, c4s3])) ∧
        (Client.parse_chunks [c4s1, c4s2, c4s3]).yields
            = (["Hi", " there"] : List String).map Json.str ∧
        (Client.parse_chunks [c4s1, c4s2, c4s3]).errored = false)) ∧
    (wellFormedFragments [] = some [] ∧
      (Client.parse_response [] true = .ok (.chunks (Client.parse_chunks [])) ∧
        (Client.parse_chunks []).yields = ([] : List String).map Json.str ∧
        (Client.parse_chunks []).errored = false)) :=
  ⟨⟨rfl, claim_C2_streaming_yields [c4s1, c4s2, c4s3] ["Hi", " there"] rfl⟩,
   ⟨rfl, claim_C2_streaming_yields [] [] rfl⟩⟩

/-- C3 counterexample: `badLine` is malformed (`json_loads` fails on it) yet
begins with the recognised content-event literal, so `json.loads` raises out
of the loop in both implementations: the whole parse errors, and the line
after `badLine` is never processed (one line consumed out of two). -/
theorem claim_C3_counterexample :
    strStarts badLine contentStart = true ∧
    json_loads badLine = none ∧
    Client.parse_response [badLine, c4s1] false = .error .jsonDecodeError ∧
    (Client.parse_chunks [badLine, c4s1]).errored = true ∧
    (Client.parse_chunks [badLine, c4s1]).consumed = 1 ∧
    App.parse_response [badLine, c4s1] = .error .jsonDecodeError :=
  ⟨rfl, rfl, rfl, rfl, rfl, rfl⟩

/-- C3 amended: a malformed line that does NOT begin with the recognised
content-event literal is skipped, in both modes and in both implementations,
without altering the outcome on the remaining lines. -/
theorem claim_C3_amended (xs ys : List String) (l : String)
    (_hmal : json_loads l = none) (hns : strStarts l contentStart = false) :
    Client.parse_response (xs ++ l :: ys) false = Client.parse_response (xs ++ ys) false ∧
    App.parse_response (xs ++ l :: ys) = App.parse_response (xs ++ ys) ∧
    (Client.parse_chunks (xs ++ l :: ys)).yields = (Client.parse_chunks (xs ++ ys)).yields ∧
    (Client.parse_chunks (xs ++ l :: ys)).errored = (Client.parse_chunks (xs ++ ys)).errored := by
  have hl := processLine_skip_of_not_starts hns
  obtain ⟨hy, he⟩ := runChunks_insert_skip xs ys hl
  refine ⟨?_, parseAux_insert_skip xs ys hl "", hy, he⟩
  simp [Client.parse_response, joinAll_parse_chunks, hy, he]

/-- Witness for the amended C3: inserting the malformed non-matching
`noiseLine` between two content events changes nothing. -/
theorem claim_C3_witness :
    json_loads noiseLine = none ∧
    strStarts noiseLine contentStart = false ∧
    (Client.parse_response ([c4s1] ++ noiseLine :: [c4s3]) false
        = Client.parse_response ([c4s1] ++ [c4s3]) false ∧
      App.parse_response ([c4s1] ++ noiseLine :: [c4s3])
          = App.parse_response ([c4s1] ++ [c4s3]) ∧
      (Client.parse_chunks ([c4s1] ++ noiseLine :: [c4s3])).yields
          = (Client.parse_chunks ([c4s1] ++ [c4s3])).yields ∧
      (Client.parse_chunks ([c4s1] ++ noiseLine :: [c4s3])).errored
          = (Client.parse_chunks ([c4s1] ++ [c4s3])).errored) :=
  ⟨rfl, rfl, claim_C3_amended [c4s1] [c4s3] noiseLine rfl rfl⟩

/-- C4 counterexample: on the spec's §8 scenario written exactly as the spec
writes it (no space after the colons), the `startswith` test recognises no
line, so aggregate mode returns `""`, not `"Hi there"`, and streaming mode
yields nothing. -/
theorem claim_C4_counterexample :
    strStarts c4_line1 contentStart = false ∧
    strStarts c4_line3 contentStart = false ∧
    Client.parse_response [c4_line1, c4_line2, c4_line3] false = .ok (.full "") ∧
    (Client.parse_chunks [c4_line1, c4_line2, c4_line3]).yields = [] ∧
    ("" : String) ≠ "Hi there" :=
  ⟨rfl, rfl, rfl, rfl, by decide⟩

/-- C4 amended: on the same three events serialized with a space after each
colon (the shape the parser's literal recognises), aggregate mode returns
`"Hi there"` and streaming mode yields `"Hi"` then `" there"`. -/
theorem claim_C4_amended :
    Client.parse_response [c4s1, c4s2, c4s3] false = .ok (.full "Hi there") ∧
    (Client.parse_chunks [c4s1, c4s2, c4s3]).yields = [Json.str "Hi", Json.str " there"] ∧
    (Client.parse_chunks [c4s1, c4s2, c4s3]).errored = false :=
  ⟨rfl, rfl, rfl⟩

/-- C5 counterexample: inserting a malformed line that begins with the
recognised literal between two content events drops the following fragment
(streaming) and turns the aggregate result into an error, so insertion of an
arbitrary malformed line does not preserve the fragment sequence. -/
theorem claim_C5_counterexample :
    (Client.parse_chunks [c4s1, c4s3]).yields = [Json.str "Hi", Json.str " there"] ∧
    (Client.parse_chunks [c4s1, badLine, c4s3]).yields = [Json.str "Hi"] ∧
    Client.parse_response [c4s1, badLine, c4s3] false = .error .jsonDecodeError ∧
    ([Json.str "Hi"] : List Json) ≠ [Json.str "Hi", Json.str " there"] :=
  ⟨rfl, rfl, rfl, fun h => by simpa using congrArg List.length h⟩

/-- C5 amended: on streams where no line raises, the fragments in the result
are exactly the content values of the recognised content events in arrival
order; and inserting a line the parser SKIPS (a non-content event, or a
malformed line not beginning with the recognised literal) anywhere preserves
the fragment sequence and the result, in both modes and both
implementations. -/
theorem claim_C5_amended (stream xs ys : List String) (l : String)
    (hnr : linesNoRaise stream = true) (hl : processLine l = .skip) :
    (Client.parse_chunks stream).yields = contentEmits stream ∧
    (Client.parse_chunks (xs ++ l :: ys)).yields = (Client.parse_chunks (xs ++ ys)).yields ∧
    (Client.parse_chunks (xs ++ l :: ys)).errored = (Client.parse_chunks (xs ++ ys)).errored ∧
    Client.parse_response (xs ++ l :: ys) false = Client.parse_response (xs ++ ys) false ∧
    App.parse_response (xs ++ l :: ys) = App.parse_response (xs ++ ys) := by
  obtain ⟨hy, he⟩ := runChunks_insert_skip xs ys hl
  refine ⟨runChunks_yielded_eq_contentEmits stream (linesNoRaise_spec hnr), hy, he, ?_,
    parseAux_insert_skip xs ys hl ""⟩
  simp [Client.parse_response, joinAll_parse_chunks, hy, he]

/-- Witness for the amended C5: a status event is skipped and inserting it
between two content events changes nothing. -/
theorem claim_C5_witness :
    linesNoRaise [c4s1, c4s2] = true ∧
    processLine c4s2 = .skip ∧
    ((Client.parse_chunks [c4s1, c4s2]).yields = contentEmits [c4s1, c4s2] ∧
      (Client.parse_chunks ([c4s1] ++ c4s2 :: [c4s3])).yields
          = (Client.parse_chunks ([c4s1] ++ [c4s3])).yields ∧
      (Client.parse_chunks ([c4s1] ++ c4s2 :: [c4s3])).errored
          = (Client.parse_chunks ([c4s1] ++ [c4s3])).errored ∧
      Client.parse_response ([c4s1] ++ c4s2 :: [c4s3]) false
          = Client.parse_response ([c4s1] ++ [c4s3]) false ∧
      App.parse_response ([c4s1] ++ c4s2 :: [c4s3])
          = App.parse_response ([c4s1] ++ [c4s3])) :=
  ⟨rfl, rfl, claim_C5_amended [c4s1, c4s2] [c4s1] [c4s3] c4s2 rfl rfl⟩

/-- C6: in aggregate mode, once the parse has fully consumed the stream and
produced a string, `enter_prompt` attempts `response.close()` exactly once,
and if the close raises `StreamConsumedError` (stream already fully consumed)
or a generic `RequestException`, the failure is swallowed and the aggregated
string is still returned. -/
theorem claim_C6_release_once
    (transport : String → RequestData → Except PyError (List String))
    (cb : CloseBehavior) (base_url prompt model : String) (web_search : Bool)
    (provider : String) (auto_continue : Bool) (api_key : Option String)
    (stream : List String) (s : String)
    (htr : transport (base_url ++ "/backend-api/v2/conversation")
        ⟨model, web_search, provider, [⟨"user", prompt⟩], auto_continue, api_key⟩
        = .ok stream)
    (hp : Client.parse_response stream false = .ok (.full s))
    (hcb : cb ≠ CloseBehavior.otherError) :
    Client.enter_prompt transport cb base_url prompt model web_search provider
        auto_continue api_key false = (.ok (.full s), 1) := by
  cases cb with
  | ok => simp [Client.enter_prompt, Client.send_request, htr, hp]
  | streamConsumedError => simp [Client.enter_prompt, Client.send_request, htr, hp]
  | requestException => simp [Client.enter_prompt, Client.send_request, htr, hp]
  | otherError => exact absurd rfl hcb

/-- Witness for C6: a one-event stream with a close that raises
`StreamConsumedError`; the string is still returned and close was attempted
exactly once. -/
theorem claim_C6_witness :
    (fun _ _ => Except.ok [c4s1] : String → RequestData → Except PyError (List String))
        ("http://127.0.0.1:8080" ++ "/backend-api/v2/conversation")
        ⟨"", false, "", [⟨"user", "hello"⟩], true, none⟩ = .ok [c4s1] ∧
    Client.parse_response [c4s1] false = .ok (.full "Hi") ∧
    CloseBehavior.streamConsumedError ≠ CloseBehavior.otherError ∧
    Client.enter_prompt (fun _ _ => .ok [c4s1]) .streamConsumedError
        "http://127.0.0.1:8080" "hello" "" false "" true none false
      = (.ok (.full "Hi"), 1) :=
  ⟨rfl, rfl, by decide,
    claim_C6_release_once (fun _ _ => .ok [c4s1]) .streamConsumedError
      "http://127.0.0.1:8080" "hello" "" false "" true none [c4s1] "Hi"
      rfl rfl (by decide)⟩

/-- C7 (code defect): in streaming mode nothing ever releases the connection.
`enter_prompt` performs zero `response.close()` attempts when `chunked=True`,
and the generator it hands out runs no close on early disposal (its body has
no `try/finally` and never touches `response.close`), so a caller who
abandons the lazy sequence early leaves the connection unreleased. -/
theorem claim_C7_streaming_never_released :
    Client.enter_prompt (fun _ _ => .ok [c4s1, c4s3]) .ok "http://127.0.0.1:8080"
        "hello" "" false "" true none true
      = (.ok (.chunks ⟨[Json.str "Hi", Json.str " there"], false, 2, 0⟩), 0) ∧
    (Client.parse_chunks [c4s1, c4s3]).onCloseCloses = 0 :=
  ⟨rfl, rfl⟩

/-- C8: `enter_prompt` sends exactly the request body
`{model, web_search, provider, messages=[{role:"user", content:prompt}],
auto_continue, api_key}` to `<base_url>/backend-api/v2/conversation`, with no
argument validated or altered, and returns exactly what the parser produces
for mode `chunked` (provided the close attempt itself does not raise an
unswallowed exception). -/
theorem claim_C8_payload_passthrough
    (transport : String → RequestData → Except PyError (List String))
    (cb : CloseBehavior) (base_url prompt model : String) (web_search : Bool)
    (provider : String) (auto_continue : Bool) (api_key : Option String)
    (chunked : Bool) (hcb : cb ≠ CloseBehavior.otherError) :
    (Client.enter_prompt transport cb base_url prompt model web_search provider
        auto_continue api_key chunked).1
      = match transport (base_url ++ "/backend-api/v2/conversation")
            ⟨model, web_search, provider, [⟨"user", prompt⟩], auto_continue, api_key⟩ with
        | .error e => .error e
        | .ok stream => Client.parse_response stream chunked := by
  cases htr : transport (base_url ++ "/backend-api/v2/conversation")
      ⟨model, web_search, provider, [⟨"user", prompt⟩], auto_continue, api_key⟩ with
  | error e => simp [Client.enter_prompt, Client.send_request, htr]
  | ok stream =>
    cases hp : Client.parse_response stream chunked with
    | error e => simp [Client.enter_prompt, Client.send_request, htr, hp]
    | ok parsed =>
      cases chunked with
      | true => simp [Client.enter_prompt, Client.send_request, htr, hp]
      | false =>
        cases cb with
        | ok => simp [Client.enter_prompt, Client.send_request, htr, hp]
        | streamConsumedError => simp [Client.enter_prompt, Client.send_request, htr, hp]
        | requestException => simp [Client.enter_prompt, Client.send_request, htr, hp]
        | otherError => exact absurd rfl hcb

/-- Witness for C8, on a concrete transport and argument tuple. -/
theorem claim_C8_witness :
    CloseBehavior.ok ≠ CloseBehavior.otherError ∧
    (Client.enter_prompt (fun _ _ => .ok [c4s1, c4s2, c4s3]) .ok "http://h" "p" "m"
        true "prov" false (some "k") false).1
      = match (fun _ _ => Except.ok [c4s1, c4s2, c4s3] :
            String → RequestData → Except PyError (List String))
            ("http://h" ++ "/backend-api/v2/conversation")
            ⟨"m", true, "prov", [⟨"user", "p"⟩], false, some "k"⟩ with
        | .error e => .error e
        | .ok stream => Client.parse_response stream false :=
  ⟨by decide,
    claim_C8_payload_passthrough (fun _ _ => .ok [c4s1, c4s2, c4s3]) .ok "http://h"
      "p" "m" true "prov" false (some "k") false (by decide)⟩

/-- C9: when the POST itself raises (connection refused / timeout before any
bytes), `enter_prompt` propagates that very exception and performs nothing
else: no close attempt, no partial or empty string returned. -/
theorem claim_C9_transport_error_propagates
    (transport : String → RequestData → Except PyError (List String))
    (cb : CloseBehavior) (base_url prompt model : String) (web_search : Bool)
    (provider : String) (auto_continue : Bool) (api_key : Option String)
    (chunked : Bool) (e : PyError)
    (htr : transport (base_url ++ "/backend-api/v2/conversation")
        ⟨model, web_search, provider, [⟨"user", prompt⟩], auto_continue, api_key⟩
        = .error e) :
    Client.enter_prompt transport cb base_url prompt model web_search provider
        auto_continue api_key chunked = (.error e, 0) := by
  simp [Client.enter_prompt, Client.send_request, htr]

/-- Witness for C9: a transport that refuses every connection. -/
theorem claim_C9_witness :
    (fun _ _ => Except.error .transportError :
        String → RequestData → Except PyError (List String))
        ("http://127.0.0.1:8080" ++ "/backend-api/v2/conversation")
        ⟨"", false, "", [⟨"user", "hello"⟩], true, none⟩ = .error .transportError ∧
    Client.enter_prompt (fun _ _ => .error .transportError) .ok "http://127.0.0.1:8080"
        "hello" "" false "" true none false
      = (.error .transportError, 0) :=
  ⟨rfl,
    claim_C9_transport_error_propagates (fun _ _ => .error .transportError) .ok
      "http://127.0.0.1:8080" "hello" "" false "" true none false .transportError rfl⟩

/-- C10: on every stream, the aggregate parser of `src/app.py` and the
`chunked=False` path of `src/conversation/client.py` return the same string;
on streams where one raises, the other raises too (the equality is stated
with the raised exception's identity erased: on one family of inputs the two
raise different exception classes, `TypeError` versus `JSONDecodeError`). -/
theorem claim_C10_app_client_equivalent (stream : List String) :
    errUnit (App.parse_response stream) = fullOf (Client.parse_response stream false) := by
  have h1 : errUnit (App.parse_response stream) = streamResult stream := by
    rw [show App.parse_response stream = App.parseAux "" stream from rfl,
      errUnit_parseAux stream ""]
    cases hsr : streamResult stream with
    | ok t => simp [Except.map, String.empty_append]
    | error u => simp [Except.map]
  rw [h1, fullOf_parse_response, errUnit_joinAll_eq_streamResult]
